import Mathlib

/-!
Verification development for the script2slide repository.

Shallow embedding of:
  - parser_md.py  (parse_script and its helpers)
  - gen_csv.py    (build_quiz_csv, _row_from_quiz_single, _row_from_quiz_legacy, _get_letter)
  - gen_pptx.py   (the text-content layer of build_storyboard_pptx: _to_lines,
                   _chunk_content, _extract_quiz_choices, quiz/slide rendering, pagination)
  - app.py        (row_to_block, _split_body_to_lines of the tabular importer)

Python string semantics (strip/lower/upper/splitlines, `key: value` regex
matching) are modelled explicitly over ASCII; all definitions are computable.
-/

namespace S2S

/-- Python `\s` whitespace (ASCII range, as used by `str.strip` and the regexes). -/
def pyIsSpace (c : Char) : Bool :=
  c = ' ' ∨ c = '\t' ∨ c = '\n' ∨ c = '\r' ∨ c = '\x0b' ∨ c = '\x0c'

/-- Python `str.strip()` (ASCII whitespace). -/
def pyStrip (s : String) : String :=
  String.mk (((s.toList.dropWhile pyIsSpace).reverse.dropWhile pyIsSpace).reverse)

/-- Python `str.lstrip()`. -/
def pyLstrip (s : String) : String :=
  String.mk (s.toList.dropWhile pyIsSpace)

/-- Python `str.rstrip()`. -/
def pyRstrip (s : String) : String :=
  String.mk ((s.toList.reverse.dropWhile pyIsSpace).reverse)

/-- Python `str.lower()` (ASCII). -/
def pyLower (s : String) : String := String.mk (s.toList.map Char.toLower)

/-- Python `str.upper()` (ASCII). -/
def pyUpper (s : String) : String := String.mk (s.toList.map Char.toUpper)

/-- Line-break characters recognised by Python `str.splitlines()`
(restricted to the one-byte ones that can occur in our inputs). -/
def isLineBreak (c : Char) : Bool :=
  c = '\n' ∨ c = '\r' ∨ c = '\x0b' ∨ c = '\x0c' ∨
  c = '\x1c' ∨ c = '\x1d' ∨ c = '\x1e' ∨ c = '\x85' ∨ c = ' ' ∨ c = ' '

/-- Worker for `pySplitlines`: `cur` holds the current line reversed. -/
def splitlinesCore : List Char → List Char → List String
  | [], cur => if cur.isEmpty then [] else [String.mk cur.reverse]
  | '\r' :: '\n' :: rest, cur => String.mk cur.reverse :: splitlinesCore rest []
  | c :: rest, cur =>
    if isLineBreak c then String.mk cur.reverse :: splitlinesCore rest []
    else splitlinesCore rest (c :: cur)

/-- Python `str.splitlines()`: no trailing empty line for a trailing newline. -/
def pySplitlines (s : String) : List String := splitlinesCore s.toList []

/-- Python regex `\w` word character (ASCII). -/
def pyIsWord (c : Char) : Bool := c.isAlphanum ∨ c = '_'

/-- Python slicing `s[a:b]` (character based, clamped like Python). -/
def pySlice (s : String) (a b : Nat) : String :=
  String.mk ((s.toList.drop a).take (b - a))

/-- `s.startswith(pre)` (list-based so that it evaluates in the kernel). -/
def pyStartsWith (s pre : String) : Bool := pre.toList.isPrefixOf s.toList

/-- `s[n:]` (character based). -/
def pyDrop (s : String) (n : Nat) : String := String.mk (s.toList.drop n)

/-- One pass of Python `str.replace` (leftmost, non-overlapping). `fuel` bounds
the recursion; a nonempty pattern consumes at least one character per step, so
the `l.length` fuel supplied by `pyReplace` is never exhausted. -/
def listReplace (pat rep : List Char) : Nat → List Char → List Char
  | _, [] => []
  | 0, l => l
  | fuel + 1, c :: rest =>
    if pat ≠ [] ∧ pat.isPrefixOf (c :: rest) then
      rep ++ listReplace pat rep fuel ((c :: rest).drop pat.length)
    else c :: listReplace pat rep fuel rest

/-- Python `s.replace(pat, rep)` (all occurrences; the patterns used by the
sources are never empty, and an empty pattern leaves the string unchanged). -/
def pyReplace (s pat rep : String) : String :=
  if pat.toList = [] then s
  else String.mk (listReplace pat.toList rep.toList s.toList.length s.toList)

/-- Python `s.split(sep)` for a single-character separator. -/
def splitOnChar (sep : Char) : List Char → List (List Char)
  | [] => [[]]
  | x :: rest =>
    let r := splitOnChar sep rest
    if x = sep then [] :: r
    else
      match r with
      | h :: t => (x :: h) :: t
      | [] => [[x]]

def pySplitChar (s : String) (sep : Char) : List String :=
  (splitOnChar sep s.toList).map String.mk

/-! ### Python `int(x, 16)` -/

def isHexDigit (c : Char) : Bool :=
  c.isDigit ∨ ('a' ≤ c ∧ c ≤ 'f') ∨ ('A' ≤ c ∧ c ≤ 'F')

def hexVal (c : Char) : Nat :=
  if c.isDigit then c.toNat - '0'.toNat
  else if 'a' ≤ c then c.toNat - 'a'.toNat + 10
  else c.toNat - 'A'.toNat + 10

/-- Hex digit run with single underscores allowed between digits. -/
def hexDigitsRest (acc : Nat) : List Char → Option Nat
  | [] => some acc
  | c :: rest =>
    if c = '_' then
      match rest with
      | c2 :: rest2 => if isHexDigit c2 then hexDigitsRest (acc * 16 + hexVal c2) rest2 else none
      | [] => none
    else if isHexDigit c then hexDigitsRest (acc * 16 + hexVal c) rest else none

def hexDigitsStart : List Char → Option Nat
  | [] => none
  | c :: rest => if isHexDigit c then hexDigitsRest (hexVal c) rest else none

/-- Magnitude part after an optional sign: optional `0x`/`0X` prefix (an
underscore may directly follow the prefix), then digits with underscores. -/
def pyIntHexCore (l : List Char) : Option Nat :=
  match l with
  | c0 :: x :: rest =>
    if c0 = '0' ∧ (x = 'x' ∨ x = 'X') then
      match rest with
      | '_' :: rest2 => hexDigitsStart rest2
      | _ => hexDigitsStart rest
    else hexDigitsStart l
  | _ => hexDigitsStart l

/-- Python `int(s, 16)`: surrounding whitespace and one sign allowed;
`none` models a raised `ValueError`. -/
def pyIntHex (s : String) : Option Int :=
  let t := s.toList.dropWhile pyIsSpace
  let t := (t.reverse.dropWhile pyIsSpace).reverse
  match t with
  | [] => (pyIntHexCore []).map (fun n => (n : Int))
  | c :: rest =>
    if c = '+' then (pyIntHexCore rest).map (fun n => (n : Int))
    else if c = '-' then (pyIntHexCore rest).map (fun n => -(n : Int))
    else (pyIntHexCore (c :: rest)).map (fun n => (n : Int))

/-! ### gen_pptx.py `_hex_to_rgb` -/

/-- python-pptx `RGBColor` value (the constructor validates 0..255; a violation
raises and is caught by `_hex_to_rgb`'s `except`, handled below). -/
structure RGBColor where
  r : Int
  g : Int
  b : Int
deriving DecidableEq, Repr

def rgbInRange (v : Int) : Bool := 0 ≤ v ∧ v ≤ 255

/-- `s = (hexstr or "").strip().lstrip("#")` (line 71 of gen_pptx.py). -/
def hexStripped (hexstr : String) : String :=
  String.mk ((pyStrip hexstr).toList.dropWhile (fun c => c = '#'))

/-- `if len(s) == 3: s = "".join(ch * 2 for ch in s)` (lines 72-73). -/
def hexExpanded (s : String) : String :=
  if s.length = 3 then String.mk (s.toList.flatMap (fun c => [c, c])) else s

/-- The `try` body of `_hex_to_rgb` (lines 74-79): slice three hex pairs and
build the color; any parse/validation failure is caught and yields the default
dark gray `RGBColor(17, 17, 17)`. -/
def hexToRgbCore (s : String) : RGBColor :=
  match pyIntHex (pySlice s 0 2), pyIntHex (pySlice s 2 4), pyIntHex (pySlice s 4 6) with
  | some r, some g, some b =>
    if rgbInRange r ∧ rgbInRange g ∧ rgbInRange b then ⟨r, g, b⟩ else ⟨17, 17, 17⟩
  | _, _, _ => ⟨17, 17, 17⟩

/-- `_hex_to_rgb` from gen_pptx.py. -/
def hex_to_rgb (hexstr : String) : RGBColor :=
  hexToRgbCore (hexExpanded (hexStripped hexstr))

/-! ### Block model

The parsers produce Python dicts; every consumer reads fields through
`dict.get(key, default)` whose defaults are `""`, `[]` or `None`, so a missing
key is modelled by that default value. The `text`/`bullets` fields may hold a
string (tabular importer) or a list of lines (markup parser). -/

inductive StrOrList where
  | s (v : String)
  | l (v : List String)
deriving DecidableEq, Repr

structure SlideBlock where
  title : String
  text : StrOrList
  bullets : StrOrList
  narration : String
  image : String
  alt : String
deriving DecidableEq, Repr

structure QuizSingleBlock where
  title : String
  question : String
  choices : List String
  correctIndex : Option Int
  feedbackCorrect : String
  feedbackIncorrect : String
deriving DecidableEq, Repr

/-- Legacy `"quiz"` dict shape; the extra capitalised fields model the
alternate key spellings probed by `_row_from_quiz_legacy` (`Answer`/`answer`/
`Correct`/`correct`, `feedback_correct`/`FeedbackCorrect`, ...). -/
structure QuizBlock where
  title : String
  question : String
  A : String
  B : String
  C : String
  D : String
  choices : List String
  AnswerCap : String
  answer : String
  CorrectCap : String
  correct : String
  feedback_correct : String
  FeedbackCorrectCamel : String
  feedback_incorrect : String
  FeedbackIncorrectCamel : String
deriving DecidableEq, Repr

inductive Block where
  | slide (b : SlideBlock)
  | quiz_single (b : QuizSingleBlock)
  | quiz (b : QuizBlock)
deriving DecidableEq, Repr

/-- Lines of a string: split, strip, drop empties (`_to_lines` inner step). -/
def stripNonempty (s : String) : List String :=
  ((pySplitlines s).map pyStrip).filter (fun t => t ≠ "")

/-- `_to_lines` from gen_pptx.py (falsy values give `[]`, which coincides with
processing the default `""`/`[]`). -/
def to_lines : StrOrList → List String
  | .s v => stripNonempty v
  | .l v => v.flatMap stripNonempty

/-- Python string falsy-or: `a or b`. -/
def pyOr (a b : String) : String := if a = "" then b else a

/-! ### gen_csv.py -/

/-- `_get_letter`: `"" if idx is None or idx < 0 else "ABCD"[idx] if idx < 4 else ""`.
The indexing is guarded by `idx < 4`, so the default of `getD` is unreachable. -/
def get_letter : Option Int → String
  | none => ""
  | some idx =>
    if idx < 0 then ""
    else if idx < 4 then String.mk [['A', 'B', 'C', 'D'].getD idx.toNat 'A']
    else ""

/-- `_row_from_quiz_single`: choices normalised to exactly 4 entries
(`choices[:4] + [""] * max(0, 4 - len(choices))`). -/
def row_from_quiz_single (b : QuizSingleBlock) : List String :=
  let choices := b.choices.take 4 ++ List.replicate (4 - b.choices.length) ""
  [b.title, b.question, choices.getD 0 "", choices.getD 1 "", choices.getD 2 "",
   choices.getD 3 "", get_letter b.correctIndex, b.feedbackCorrect, b.feedbackIncorrect]

/-- `b.get("Answer") or b.get("answer") or b.get("Correct") or b.get("correct") or ""`. -/
def legacyAnswerChoice (b : QuizBlock) : String :=
  pyOr b.AnswerCap (pyOr b.answer (pyOr b.CorrectCap (pyOr b.correct "")))

/-- `_row_from_quiz_legacy`: the answer is the first truthy of
`Answer`/`answer`/`Correct`/`correct`, then `.strip().upper()`. -/
def row_from_quiz_legacy (b : QuizBlock) : List String :=
  let chosen := pyUpper (pyStrip (legacyAnswerChoice b))
  let fb_ok := pyOr b.feedback_correct b.FeedbackCorrectCamel
  let fb_bad := pyOr b.feedback_incorrect b.FeedbackIncorrectCamel
  [b.title, b.question, b.A, b.B, b.C, b.D, chosen, fb_ok, fb_bad]

def quizCsvHeader : List String :=
  ["Title", "Question", "A", "B", "C", "D", "Correct (Single or Multiple)",
   "FeedbackCorrect", "FeedbackIncorrect"]

/-- The row written for one block by `build_quiz_csv`'s loop (`none` = skipped). -/
def quizRowOf : Block → Option (List String)
  | .quiz b => some (row_from_quiz_legacy b)
  | .quiz_single b => some (row_from_quiz_single b)
  | .slide _ => none

/-- `build_quiz_csv`, at the level of logical rows. -/
def build_quiz_csv_rows (blocks : List Block) : List (List String) :=
  quizCsvHeader :: blocks.filterMap quizRowOf

/-- csv.writer default dialect: quote a field containing `,`, `"`, CR or LF. -/
def csvNeedsQuote (f : String) : Bool :=
  f.toList.any (fun c => c = ',' ∨ c = '"' ∨ c = '\r' ∨ c = '\n')

def csvField (f : String) : String :=
  if csvNeedsQuote f then "\"" ++ f.replace "\"" "\"\"" ++ "\"" else f

def csvLine (row : List String) : String :=
  String.intercalate "," (row.map csvField) ++ "\r\n"

def csvString (rows : List (List String)) : String :=
  String.join (rows.map csvLine)

def utf8Bytes (s : String) : List Nat := s.toUTF8.toList.map (fun b => b.toNat)

/-- `build_quiz_csv` serialised: `utf-8-sig` = BOM `EF BB BF` then UTF-8 text. -/
def build_quiz_csv_bytes (blocks : List Block) : List Nat :=
  [0xEF, 0xBB, 0xBF] ++ utf8Bytes (csvString (build_quiz_csv_rows blocks))

/-- State-passing translation of `build_quiz_csv`'s loop: every access to a
block in the source is a read (`dict.get`), so each block's post-iteration
state is the block itself; the first component is the block list as the loop
leaves it. -/
def quizRowsSt : List Block → List Block × List (List String)
  | [] => ([], [])
  | b :: bs =>
    let row? := quizRowOf b
    let (bs', rows) := quizRowsSt bs
    (b :: bs', match row? with | some r => r :: rows | none => rows)

def build_quiz_csv_st (blocks : List Block) : List Block × List (List String) :=
  let (bs', rows) := quizRowsSt blocks
  (bs', quizCsvHeader :: rows)

/-! ### parser_md.py -/

/-- `FIELD_RE.match(s)` = `^(\w+):\s*(.*)$`: a maximal nonempty leading run of
word characters immediately followed by `:`; the second component is the
remainder with the greedy `\s*` removed. -/
def fieldMatch? (s : String) : Option (String × String) :=
  let k := String.mk (s.toList.takeWhile pyIsWord)
  if k ≠ "" ∧ pyStartsWith (pyDrop s k.length) ":" then
    some (k, String.mk ((s.toList.drop (k.length + 1)).dropWhile pyIsSpace))
  else none

/-- `SLIDE_RE.match(s)` = `^##\s*Slide:\s*(.+)$` (case-insensitive), applied to
already-stripped lines; returns group 1. -/
def slideHeader? (s : String) : Option String :=
  if pyStartsWith s "##" then
    let r1 := String.mk ((s.toList.drop 2).dropWhile pyIsSpace)
    if pyStartsWith (pyLower r1) "slide:" then
      let r2 := String.mk ((r1.toList.drop 6).dropWhile pyIsSpace)
      if r2 ≠ "" then some r2 else none
    else none
  else none

/-- `QUIZ_SINGLE_RE.match(s)` = `^##\s*Quiz:\s*Single\s*Choice\s*$`
(case-insensitive), applied to already-stripped lines. -/
def quizHeader (s : String) : Bool :=
  if pyStartsWith s "##" then
    let r1 := String.mk ((s.toList.drop 2).dropWhile pyIsSpace)
    if pyStartsWith (pyLower r1) "quiz:" then
      let r2 := String.mk ((r1.toList.drop 5).dropWhile pyIsSpace)
      if pyStartsWith (pyLower r2) "single" then
        let r3 := String.mk ((r2.toList.drop 6).dropWhile pyIsSpace)
        if pyStartsWith (pyLower r3) "choice" then
          ((r3.toList.drop 6).dropWhile pyIsSpace).isEmpty
        else false
      else false
    else false
  else false

/-- Stop condition of `collect_textblock`: blank, bullet, field or section. -/
def stopsText (s : String) : Bool :=
  s = "" ∨ pyStartsWith s "- " ∨ (fieldMatch? s).isSome ∨ (slideHeader? s).isSome ∨ quizHeader s

/-- `collect_textblock`: contiguous freeform lines (stripped) until a stop;
returns the collected lines and the unconsumed suffix. -/
def collectTextblock : List String → List String × List String
  | [] => ([], [])
  | ln :: rest =>
    let s := pyStrip ln
    if stopsText s then ([], ln :: rest)
    else
      let (out, rest') := collectTextblock rest
      (s :: out, rest')

/-- `collect_bullets`: lines starting with `"- "` (after strip), item is
`ln[2:].strip()`; every non-bullet line stops the collection. -/
def collectBullets : List String → List String × List String
  | [] => ([], [])
  | ln :: rest =>
    let s := pyStrip ln
    if pyStartsWith s "- " then
      let (out, rest') := collectBullets rest
      (pyStrip (pyDrop s 2) :: out, rest')
    else ([], ln :: rest)

/-- In-progress slide dict of the parser loop. -/
structure CurSlide where
  title : String
  text : List String
  bullets : List String
  narration : String
  image : String
  alt : String
deriving DecidableEq, Repr

/-- The parser's `current` block (a `quiz_single` in progress reuses the final
shape, since its fields are set directly). -/
inductive Cur where
  | slide (s : CurSlide)
  | quiz (q : QuizSingleBlock)
deriving DecidableEq, Repr

/-- `while len(choices) <= idx: choices.append("")`. -/
def padChoices (choices : List String) (idx : Nat) : List String :=
  choices ++ List.replicate (idx + 1 - choices.length) ""

/-- Checked list assignment `l[idx] = v`; `Except.error` models `IndexError`. -/
def listSetChecked (l : List String) (idx : Nat) (v : String) : Except String (List String) :=
  if idx < l.length then .ok (l.set idx v) else .error "IndexError"

/-- `{"a": 0, "b": 1, "c": 2, "d": 3}.get(v, None)`. -/
def letterIndex? (v : String) : Option Int :=
  if v = "a" then some 0 else if v = "b" then some 1
  else if v = "c" then some 2 else if v = "d" then some 3 else none

/-- The quiz-field branch of `parse_script` (source lines 200-215). The guarded
`current["choices"][idx] = val` is the only operation in the whole parser that
Python could raise on; it is modelled checked here. -/
def applyQuizField (q : QuizSingleBlock) (key val : String) : Except String QuizSingleBlock :=
  if key = "title" then .ok { q with title := val }
  else if key = "question" then .ok { q with question := val }
  else if key = "a" ∨ key = "b" ∨ key = "c" ∨ key = "d" then
    let idx : Nat := if key = "a" then 0 else if key = "b" then 1 else if key = "c" then 2 else 3
    match listSetChecked (padChoices q.choices idx) idx val with
    | .ok ch => .ok { q with choices := ch }
    | .error e => .error e
  else if key = "correct" ∨ key = "answer" then
    .ok { q with correctIndex := letterIndex? (pyLower val) }
  else if key = "feedbackcorrect" then .ok { q with feedbackCorrect := val }
  else if key = "feedbackincorrect" then .ok { q with feedbackIncorrect := val }
  else .ok q

/-- Total wrapper used by the loop; `applyQuizField_never_fails` (below) shows
the fallback branch is unreachable. -/
def applyQuizFieldTotal (q : QuizSingleBlock) (key val : String) : QuizSingleBlock :=
  match applyQuizField q key val with
  | .ok q' => q'
  | .error _ => q

def flushCur : Option Cur → List Cur → List Cur
  | none, acc => acc
  | some c, acc => c :: acc

/-- Main loop of `parse_script` over the rstripped lines. The accumulator is in
reverse order. `fuel` bounds the iterations: the source's index `i` strictly
increases each iteration, so the `lines.length + 1` fuel supplied by
`parse_script` is never exhausted. -/
def parseLoop : Nat → List String → Option Cur → List Cur → List Cur
  | 0, _, cur, acc => (flushCur cur acc).reverse
  | _ + 1, [], cur, acc => (flushCur cur acc).reverse
  | fuel + 1, ln :: rest, cur, acc =>
    let s := pyStrip ln
    match slideHeader? s with
    | some t =>
      parseLoop fuel rest (some (.slide ⟨pyStrip t, [], [], "", "", ""⟩)) (flushCur cur acc)
    | none =>
      if quizHeader s then
        parseLoop fuel rest (some (.quiz ⟨"", "", [], none, "", ""⟩)) (flushCur cur acc)
      else
        match cur with
        | none => parseLoop fuel rest none acc
        | some (.slide sl) =>
          match fieldMatch? s with
          | some (k, v) =>
            let key := pyLower k
            let val := pyStrip v
            if key = "narration" ∨ key = "notes" then
              let narr0 : List String := if val ≠ "" then [val] else []
              let (more, rest') := collectTextblock rest
              let narr := pyStrip (String.intercalate "\n" ((narr0 ++ more).filter (fun t => t ≠ "")))
              parseLoop fuel rest' (some (.slide { sl with narration := narr })) acc
            else if key = "text" ∨ key = "body" ∨ key = "content" then
              let t0 : List String := if val ≠ "" then [val] else []
              let (more, rest') := collectTextblock rest
              let tl := (t0 ++ more).filter (fun t => t ≠ "")
              parseLoop fuel rest' (some (.slide { sl with text := tl })) acc
            else if key = "bullets" then
              let (bl, rest') := collectBullets rest
              parseLoop fuel rest' (some (.slide { sl with bullets := bl })) acc
            else if key = "image" then
              parseLoop fuel rest (some (.slide { sl with image := val })) acc
            else if key = "alt" then
              parseLoop fuel rest (some (.slide { sl with alt := val })) acc
            else
              parseLoop fuel rest (some (.slide sl)) acc
          | none =>
            if s ≠ "" then
              match collectTextblock (ln :: rest) with
              | (chunk, rest') =>
                if chunk ≠ [] then
                  parseLoop fuel rest' (some (.slide { sl with text := sl.text ++ chunk })) acc
                else
                  parseLoop fuel rest (some (.slide sl)) acc
            else
              parseLoop fuel rest (some (.slide sl)) acc
        | some (.quiz q) =>
          match fieldMatch? s with
          | some (k, v) =>
            parseLoop fuel rest (some (.quiz (applyQuizFieldTotal q (pyLower k) (pyStrip v)))) acc
          | none =>
            parseLoop fuel rest (some (.quiz q)) acc

/-- First choice whose `lstrip()` starts with `*` (normalization loop). -/
def findStarIdx (choices : List String) : Option Nat :=
  choices.findIdx? (fun c => pyStartsWith (pyLstrip c) "*")

/-- Quiz normalization at the end of `parse_script`: pad a nonempty choices
list to 4, and infer `correctIndex` from a leading `*` marker; the marked
choice is rewritten with `choice.lstrip("*").strip()`. -/
def normalizeQuiz (q : QuizSingleBlock) : QuizSingleBlock :=
  let q := if q.choices ≠ [] then
      { q with choices := q.choices ++ List.replicate (4 - q.choices.length) "" }
    else q
  if q.correctIndex = none ∧ q.choices ≠ [] then
    match findStarIdx q.choices with
    | some idx =>
      { q with correctIndex := some (idx : Int),
               choices := q.choices.set idx
                 (pyStrip (String.mk ((q.choices.getD idx "").toList.dropWhile (fun c => c = '*')))) }
    | none => q
  else q

/-- Final per-block normalization (`text`/`bullets`/`image`/`alt` `or`-defaults
are no-ops on the model's values; `narration` is stripped again). -/
def normalizeCur : Cur → Block
  | .slide sl => .slide ⟨sl.title, .l sl.text, .l sl.bullets, pyStrip sl.narration, sl.image, sl.alt⟩
  | .quiz q => .quiz_single (normalizeQuiz q)

/-- `parse_script` from parser_md.py. -/
def parse_script (text : String) : List Block :=
  let lines := (pySplitlines text).map pyRstrip
  (parseLoop (lines.length + 1) lines none []).map normalizeCur

/-! ### gen_pptx.py rendering (text-content level)

The deck is abstracted to the per-slide text content the claims speak about:
title string, non-bullet paragraphs, bullet lines, presenter-notes lines, and
whether an image is placed. Geometry, fonts and colors are styling applied to
this content and are not part of the abstraction. Image resolution
(`_download_if_url`) touches filesystem/network; it is abstracted by an
arbitrary `resolve : String → Bool` environment saying whether a nonempty
reference yields a usable path. -/

/-- One iteration step stream of `_chunk_content`'s `while` loops, unified:
with one side empty, `take`/`drop` on `[]` reproduce the single-list loops.
`fuel` bounds iterations; each iteration with a cap ≥ 1 consumes at least one
line, so the `text.length + bullets.length` fuel supplied below suffices. -/
def chunkSteps (tmax bmax : Nat) : Nat → List String → List String → List (List String × List String)
  | 0, _, _ => []
  | fuel + 1, text, bullets =>
    if text = [] ∧ bullets = [] then []
    else (text.take tmax, bullets.take bmax) :: chunkSteps tmax bmax fuel (text.drop tmax) (bullets.drop bmax)

/-- `_chunk_content` from gen_pptx.py (the empty/empty case yields one empty
chunk, per the final `else: yield ([], [])`). -/
def chunk_content (text bullets : List String) (max_text max_bullets : Nat) : List (List String × List String) :=
  if text = [] ∧ bullets = [] then [([], [])]
  else chunkSteps max_text max_bullets (text.length + bullets.length) text bullets

/-- A physical slide, abstracted to its text content. -/
structure RSlide where
  title : String
  paras : List String
  bullets : List String
  notes : List String
  image : Bool
deriving DecidableEq, Repr

/-- `_extract_quiz_choices` from gen_pptx.py. -/
def extract_quiz_choices (b : QuizBlock) : List String :=
  let A := pyStrip b.A
  let B := pyStrip b.B
  let C := pyStrip b.C
  let D := pyStrip b.D
  if A ≠ "" ∨ B ≠ "" ∨ C ≠ "" ∨ D ≠ "" then [A, B, C, D]
  else if b.choices ≠ [] then
    let arr := (b.choices.take 4).map pyStrip
    arr ++ List.replicate (4 - arr.length) ""
  else ["", "", "", ""]

/-- The displayed question of a quiz slide (source lines 356-363): if the
space-stripped answer contains a comma, the select-all hint is appended to the
displayed text and the result stripped. -/
def quizDisplayQuestion (b : QuizBlock) : String :=
  if (pyReplace b.answer " " "").toList.contains ',' then
    pyStrip (b.question ++ "\n\n(Select all that apply)")
  else b.question

/-- Option bullets (source lines 392-395): one `"<Letter>: <text>"` line per
non-empty option, in fixed order A, B, C, D. -/
def quizOptionLines (b : QuizBlock) : List String :=
  (List.zip ["A", "B", "C", "D"] (extract_quiz_choices b)).filterMap
    (fun p => if p.2 ≠ "" then some (p.1 ++ ": " ++ p.2) else none)

/-- Presenter-notes text for a quiz slide (source lines 398-402). -/
def quizNoteText (b : QuizBlock) : String :=
  (if b.feedback_correct ≠ "" then "Correct: " ++ b.feedback_correct ++ "\n" else "")
    ++ (if b.feedback_incorrect ≠ "" then "Incorrect: " ++ b.feedback_incorrect ++ "\n" else "")

/-- The quiz branch of `build_storyboard_pptx`'s loop (source lines 354-411). -/
def renderQuizSlide (b : QuizBlock) : RSlide :=
  { title := pyStrip (pyOr b.title "Quiz"),
    paras := if quizDisplayQuestion b ≠ "" then [quizDisplayQuestion b] else [],
    bullets := quizOptionLines b,
    notes := if quizNoteText b ≠ "" then pySplitlines (quizNoteText b) else [],
    image := false }

/-- The normal-slide branch of `build_storyboard_pptx`'s loop (source lines
419-493): chunked pagination, " (cont.)" continuation titles, narration and
image only on the first chunk. -/
def renderSlideBlock (resolve : String → Bool) (tmax bmax : Nat) (b : SlideBlock) : List RSlide :=
  let title := pyStrip (pyOr b.title "Slide")
  let body_text := to_lines b.text
  let bullets := to_lines b.bullets
  let narration := pyStrip b.narration
  let image_ref := pyStrip b.image
  let has_img := image_ref ≠ "" ∧ resolve image_ref
  (chunk_content body_text bullets tmax bmax).mapIdx (fun i c =>
    { title := if i = 0 then title else title ++ " (cont.)",
      paras := c.1,
      bullets := c.2,
      notes := if i = 0 ∧ narration ≠ "" then pySplitlines narration else [],
      image := has_img ∧ i = 0 })

/-- One loop iteration of `build_storyboard_pptx`: a `"quiz"` block renders one
slide, a `"slide"` block one slide per chunk, anything else is skipped
(`quiz_single` matches neither branch). -/
def renderBlock (resolve : String → Bool) (tmax bmax : Nat) : Block → List RSlide
  | .quiz b => [renderQuizSlide b]
  | .slide b => renderSlideBlock resolve tmax bmax b
  | .quiz_single _ => []

/-- The fixed title slide (course title + standard subtitle). -/
def titleSlide (course_title : String) : RSlide :=
  { title := course_title, paras := ["Storyboard generated automatically"],
    bullets := [], notes := [], image := false }

/-- `build_storyboard_pptx`, abstracted to the slide-content list. -/
def build_storyboard_pptx (resolve : String → Bool) (tmax bmax : Nat)
    (course_title : String) (blocks : List Block) : List RSlide :=
  titleSlide course_title :: blocks.flatMap (renderBlock resolve tmax bmax)

/-- State-passing translation of the render loop: every access the source makes
to a block is a read (`dict.get`), so each block's post-iteration state is the
block itself; the first component is the block list as the loop leaves it. -/
def renderBlocksSt (resolve : String → Bool) (tmax bmax : Nat) : List Block → List Block × List RSlide
  | [] => ([], [])
  | b :: bs =>
    let slides := renderBlock resolve tmax bmax b
    let (bs', rest) := renderBlocksSt resolve tmax bmax bs
    (b :: bs', slides ++ rest)

def build_storyboard_pptx_st (resolve : String → Bool) (tmax bmax : Nat)
    (course_title : String) (blocks : List Block) : List Block × List RSlide :=
  let (bs', slides) := renderBlocksSt resolve tmax bmax blocks
  (bs', titleSlide course_title :: slides)

/-! ### app.py tabular importer -/

/-- `_split_body_to_lines`: expand the four literal `<br>` forms to newlines,
split lines, strip, drop empties. -/
def split_body_to_lines (body : String) : List String :=
  let raw := pyReplace (pyReplace (pyReplace (pyReplace body "<br/>" "\n") "<br>" "\n") "<BR/>" "\n") "<BR>" "\n"
  ((pySplitlines raw).map pyStrip).filter (fun t => t ≠ "")

def bulletMarks : List String := ["- ", "• ", "* ", "– ", "— "]

/-- Text before the first `:` (Python `s.split(":", 1)[0]`). -/
def beforeColon (s : String) : String :=
  String.mk (s.toList.takeWhile (fun c => c ≠ ':'))

/-- Text after the first `:` (Python `s.split(":", 1)[1]`). -/
def afterColon (s : String) : String :=
  String.mk ((s.toList.dropWhile (fun c => c ≠ ':')).drop 1)

/-- Python dict lookup with default, over insertion-ordered bindings where a
later binding overwrites an earlier one. -/
def dictGet (m : List (String × String)) (k d : String) : String :=
  match m.reverse.find? (fun p => p.1 = k) with
  | some p => p.2
  | none => d

/-- The quiz field map of `row_to_block`: seeded with the title, then one
binding per body line containing a colon. -/
def quizFieldsOf (quiz_title : String) (body_lines : List String) : List (String × String) :=
  body_lines.foldl (fun m ln =>
    if ln.toList.contains ':' then
      m ++ [(pyLower (pyStrip (beforeColon ln)), pyStrip (afterColon ln))]
    else m) [("title", quiz_title)]

/-- The quiz block built by `row_to_block`'s quiz branch (app.py lines
117-135): fields looked up in the body-line map, answer uppercased with spaces
removed. -/
def quizRowBlock (quiz_title : String) (body_lines : List String) : QuizBlock :=
  { title := dictGet (quizFieldsOf quiz_title body_lines) "title" "",
    question := dictGet (quizFieldsOf quiz_title body_lines) "question" "",
    A := dictGet (quizFieldsOf quiz_title body_lines) "a" "",
    B := dictGet (quizFieldsOf quiz_title body_lines) "b" "",
    C := dictGet (quizFieldsOf quiz_title body_lines) "c" "",
    D := dictGet (quizFieldsOf quiz_title body_lines) "d" "",
    choices := [],
    AnswerCap := "",
    answer := pyUpper (pyReplace (dictGet (quizFieldsOf quiz_title body_lines) "answer" "") " " ""),
    CorrectCap := "",
    correct := "",
    feedback_correct := dictGet (quizFieldsOf quiz_title body_lines) "feedbackcorrect" "",
    FeedbackCorrectCamel := "",
    feedback_incorrect := dictGet (quizFieldsOf quiz_title body_lines) "feedbackincorrect" "",
    FeedbackIncorrectCamel := "" }

/-- `row_to_block` from app.py (`_auto_blocks_from_table`'s per-row function). -/
def row_to_block (title body narration : String) : Block :=
  let title_raw := pyStrip title
  let title_norm := pyOr title_raw "Slide"
  let body := pyReplace body "\\n" "\n"
  if pyStartsWith (pyUpper title_raw) "QUIZ" then
    let quiz_title := if title_raw.toList.contains ':' then pyStrip (afterColon title_raw) else title_raw
    Block.quiz (quizRowBlock quiz_title (split_body_to_lines body))
  else
    let lines := split_body_to_lines body
    let lines := if lines.length ≤ 1 ∧ body.toList.contains ';' ∧ ¬ body.toList.contains '\n' then
        ((pySplitChar body ';').map pyStrip).filter (fun p => p ≠ "")
      else lines
    let step := fun (st : Bool × List String) (ln : String) =>
      match bulletMarks.find? (fun p => pyStartsWith ln p) with
      | some p => (true, st.2 ++ [pyStrip (pyDrop ln p.length)])
      | none =>
        if pyStartsWith ln "-" ∧ ¬ pyStartsWith ln "- " then (true, st.2 ++ [pyStrip (pyDrop ln 1)])
        else (st.1, st.2 ++ [ln])
    let (is_bulleted, items) := lines.foldl step (false, [])
    if is_bulleted then
      Block.slide { title := title_norm, text := .s "", bullets := .l items,
                    narration := narration, image := "", alt := "" }
    else
      Block.slide { title := title_norm, text := .s (String.intercalate "\n" items), bullets := .l [],
                    narration := narration, image := "", alt := "" }

/-! ## Lemmas -/

theorem dropWhile_eq_self_of_all {p : Char → Bool} :
    ∀ {l : List Char}, (∀ c ∈ l, p c = false) → l.dropWhile p = l := by
  intro l h
  cases l with
  | nil => rfl
  | cons c t =>
    rw [List.dropWhile_cons_of_neg]
    simp [h c (by simp)]

theorem pyStrip_mk_of_noSpace {l : List Char} (h : ∀ c ∈ l, pyIsSpace c = false) :
    pyStrip (String.mk l) = String.mk l := by
  unfold pyStrip
  have h2 : ∀ c ∈ l.reverse, pyIsSpace c = false := by
    intro c hc; exact h c (List.mem_reverse.mp hc)
  rw [show (String.mk l).toList = l from rfl, dropWhile_eq_self_of_all h,
      dropWhile_eq_self_of_all h2, List.reverse_reverse]

theorem hex_char_bounds {c : Char} (h : isHexDigit c = true) :
    (48 ≤ c.toNat ∧ c.toNat ≤ 57) ∨ (97 ≤ c.toNat ∧ c.toNat ≤ 102) ∨
    (65 ≤ c.toNat ∧ c.toNat ≤ 70) := by
  have h' : c.isDigit = true ∨ (('a' ≤ c) ∧ (c ≤ 'f')) ∨ (('A' ≤ c) ∧ (c ≤ 'F')) := by
    simpa [isHexDigit] using h
  rcases h' with hd | ⟨h1, h2⟩ | ⟨h1, h2⟩
  · left
    have hd' : ('0' ≤ c) ∧ (c ≤ '9') := by simpa [Char.isDigit] using hd
    exact ⟨hd'.1, hd'.2⟩
  · right; left; exact ⟨h1, h2⟩
  · right; right; exact ⟨h1, h2⟩

theorem hex_char_facts {c : Char} (h : isHexDigit c = true) :
    pyIsSpace c = false ∧ (decide (c = '#')) = false ∧ c ≠ '_' ∧ c ≠ 'x' ∧ c ≠ 'X' ∧
    c ≠ '+' ∧ c ≠ '-' ∧ hexVal c ≤ 15 := by
  have hb := hex_char_bounds h
  refine ⟨?_, ?_, ?_, ?_, ?_, ?_, ?_, ?_⟩
  · unfold pyIsSpace
    rw [decide_eq_false_iff_not]
    rintro (rfl | rfl | rfl | rfl | rfl | rfl) <;>
      simp only [show Char.toNat ' ' = 32 from rfl, show Char.toNat '\t' = 9 from rfl,
        show Char.toNat '\n' = 10 from rfl, show Char.toNat '\r' = 13 from rfl,
        show Char.toNat '\x0b' = 11 from rfl, show Char.toNat '\x0c' = 12 from rfl] at hb <;> omega
  · rw [decide_eq_false_iff_not]
    rintro rfl
    simp only [show Char.toNat '#' = 35 from rfl] at hb; omega
  · rintro rfl; simp only [show Char.toNat '_' = 95 from rfl] at hb; omega
  · rintro rfl; simp only [show Char.toNat 'x' = 120 from rfl] at hb; omega
  · rintro rfl; simp only [show Char.toNat 'X' = 88 from rfl] at hb; omega
  · rintro rfl; simp only [show Char.toNat '+' = 43 from rfl] at hb; omega
  · rintro rfl; simp only [show Char.toNat '-' = 45 from rfl] at hb; omega
  · unfold hexVal
    split_ifs with hd ha
    · have hd' : ('0' ≤ c) ∧ (c ≤ '9') := by simpa [Char.isDigit] using hd
      have e : Char.toNat '0' = 48 := rfl
      have : c.toNat ≤ 57 := hd'.2
      omega
    · have e : Char.toNat 'a' = 97 := rfl
      have h1 : 97 ≤ c.toNat := ha
      have hnd : ¬ (('0' ≤ c) ∧ (c ≤ '9')) := by
        intro hc; exact absurd (by simpa [Char.isDigit] using hc : c.isDigit = true) (by simpa using hd)
      rcases hb with ⟨b1, b2⟩ | ⟨b1, b2⟩ | ⟨b1, b2⟩ <;> omega
    · have e : Char.toNat 'A' = 65 := rfl
      have h1 : ¬ (97 ≤ c.toNat) := ha
      rcases hb with ⟨b1, b2⟩ | ⟨b1, b2⟩ | ⟨b1, b2⟩
      · have hd0 : ('0' : Char) ≤ c := b1
        have hd9 : c ≤ '9' := b2
        exact absurd (show c.isDigit = true by simp [Char.isDigit]; exact ⟨hd0, hd9⟩)
          (by simpa using hd)
      · omega
      · omega

theorem pyIntHex_pair {c1 c2 : Char} (h1 : isHexDigit c1 = true) (h2 : isHexDigit c2 = true) :
    pyIntHex (String.mk [c1, c2]) = some ((16 * hexVal c1 + hexVal c2 : Nat) : Int) := by
  obtain ⟨s1, _, u1, x1, X1, p1, m1, _⟩ := hex_char_facts h1
  obtain ⟨s2, _, u2, x2, X2, p2, m2, _⟩ := hex_char_facts h2
  have hz : ¬ (c1 = '0' ∧ (c2 = 'x' ∨ c2 = 'X')) := by
    rintro ⟨-, rfl | rfl⟩ <;> simp_all
  simp [pyIntHex, pyIntHexCore, hexDigitsStart, hexDigitsRest, s1, s2, p1, m1, u1, u2,
    h1, h2, hz, List.dropWhile_cons]
  omega

theorem rgbInRange_natCast (n : Nat) (h : n ≤ 255) : rgbInRange ((n : Nat) : Int) = true := by
  unfold rgbInRange
  rw [decide_eq_true_eq]
  exact ⟨Int.natCast_nonneg n, by exact_mod_cast h⟩

theorem hexToRgbCore_pairs {c1 c2 c3 c4 c5 c6 : Char}
    (h : ∀ c ∈ [c1, c2, c3, c4, c5, c6], isHexDigit c = true) :
    hexToRgbCore (String.mk [c1, c2, c3, c4, c5, c6]) =
      ⟨((16 * hexVal c1 + hexVal c2 : Nat) : Int),
       ((16 * hexVal c3 + hexVal c4 : Nat) : Int),
       ((16 * hexVal c5 + hexVal c6 : Nat) : Int)⟩ := by
  have hv : ∀ c ∈ [c1, c2, c3, c4, c5, c6], hexVal c ≤ 15 :=
    fun c hc => (hex_char_facts (h c hc)).2.2.2.2.2.2.2
  unfold hexToRgbCore
  rw [show pySlice (String.mk [c1, c2, c3, c4, c5, c6]) 0 2 = String.mk [c1, c2] from rfl,
      show pySlice (String.mk [c1, c2, c3, c4, c5, c6]) 2 4 = String.mk [c3, c4] from rfl,
      show pySlice (String.mk [c1, c2, c3, c4, c5, c6]) 4 6 = String.mk [c5, c6] from rfl]
  rw [pyIntHex_pair (h c1 (by simp)) (h c2 (by simp)),
      pyIntHex_pair (h c3 (by simp)) (h c4 (by simp)),
      pyIntHex_pair (h c5 (by simp)) (h c6 (by simp))]
  have r1 := rgbInRange_natCast (16 * hexVal c1 + hexVal c2)
    (by have := hv c1 (by simp); have := hv c2 (by simp); omega)
  have r2 := rgbInRange_natCast (16 * hexVal c3 + hexVal c4)
    (by have := hv c3 (by simp); have := hv c4 (by simp); omega)
  have r3 := rgbInRange_natCast (16 * hexVal c5 + hexVal c6)
    (by have := hv c5 (by simp); have := hv c6 (by simp); omega)
  simp only [r1, r2, r3]
  simp

theorem hexStripped_mk_hex {l : List Char} (h : ∀ c ∈ l, isHexDigit c = true) :
    hexStripped (String.mk l) = String.mk l := by
  unfold hexStripped
  rw [pyStrip_mk_of_noSpace (fun c hc => (hex_char_facts (h c hc)).1)]
  rw [show (String.mk l).toList = l from rfl,
      dropWhile_eq_self_of_all (fun c hc => (hex_char_facts (h c hc)).2.1)]

theorem hexStripped_hash_mk_hex {l : List Char} (h : ∀ c ∈ l, isHexDigit c = true) :
    hexStripped (String.mk ('#' :: l)) = String.mk l := by
  unfold hexStripped
  have hsp : ∀ c ∈ '#' :: l, pyIsSpace c = false := by
    intro c hc
    rcases List.mem_cons.mp hc with rfl | hc
    · rfl
    · exact (hex_char_facts (h c hc)).1
  rw [pyStrip_mk_of_noSpace hsp]
  rw [show (String.mk ('#' :: l)).toList = '#' :: l from rfl]
  rw [List.dropWhile_cons_of_pos (by simp)]
  rw [dropWhile_eq_self_of_all (fun c hc => (hex_char_facts (h c hc)).2.1)]

theorem hex_to_rgb_six {c1 c2 c3 c4 c5 c6 : Char}
    (h : ∀ c ∈ [c1, c2, c3, c4, c5, c6], isHexDigit c = true) :
    hex_to_rgb (String.mk [c1, c2, c3, c4, c5, c6]) =
      ⟨((16 * hexVal c1 + hexVal c2 : Nat) : Int),
       ((16 * hexVal c3 + hexVal c4 : Nat) : Int),
       ((16 * hexVal c5 + hexVal c6 : Nat) : Int)⟩ := by
  unfold hex_to_rgb
  rw [hexStripped_mk_hex h]
  rw [show hexExpanded (String.mk [c1, c2, c3, c4, c5, c6]) = String.mk [c1, c2, c3, c4, c5, c6]
      from if_neg (by simp [String.length])]
  exact hexToRgbCore_pairs h

theorem hex_to_rgb_six_hash {c1 c2 c3 c4 c5 c6 : Char}
    (h : ∀ c ∈ [c1, c2, c3, c4, c5, c6], isHexDigit c = true) :
    hex_to_rgb (String.mk ['#', c1, c2, c3, c4, c5, c6]) =
      ⟨((16 * hexVal c1 + hexVal c2 : Nat) : Int),
       ((16 * hexVal c3 + hexVal c4 : Nat) : Int),
       ((16 * hexVal c5 + hexVal c6 : Nat) : Int)⟩ := by
  unfold hex_to_rgb
  rw [show String.mk ['#', c1, c2, c3, c4, c5, c6] = String.mk ('#' :: [c1, c2, c3, c4, c5, c6])
      from rfl, hexStripped_hash_mk_hex h]
  rw [show hexExpanded (String.mk [c1, c2, c3, c4, c5, c6]) = String.mk [c1, c2, c3, c4, c5, c6]
      from if_neg (by simp [String.length])]
  exact hexToRgbCore_pairs h

theorem hex_to_rgb_three {c1 c2 c3 : Char}
    (h : ∀ c ∈ [c1, c2, c3], isHexDigit c = true) :
    hex_to_rgb (String.mk [c1, c2, c3]) =
      ⟨((17 * hexVal c1 : Nat) : Int), ((17 * hexVal c2 : Nat) : Int),
       ((17 * hexVal c3 : Nat) : Int)⟩ := by
  have h6 : ∀ c ∈ [c1, c1, c2, c2, c3, c3], isHexDigit c = true := by
    intro c hc
    apply h
    simp only [List.mem_cons, List.not_mem_nil, or_false] at hc ⊢
    tauto
  unfold hex_to_rgb
  rw [hexStripped_mk_hex h]
  rw [show hexExpanded (String.mk [c1, c2, c3]) = String.mk [c1, c1, c2, c2, c3, c3]
      from if_pos (by simp [String.length])]
  rw [hexToRgbCore_pairs h6]
  simp only [RGBColor.mk.injEq]
  refine ⟨?_, ?_, ?_⟩ <;> omega

theorem hex_to_rgb_three_hash {c1 c2 c3 : Char}
    (h : ∀ c ∈ [c1, c2, c3], isHexDigit c = true) :
    hex_to_rgb (String.mk ['#', c1, c2, c3]) =
      ⟨((17 * hexVal c1 : Nat) : Int), ((17 * hexVal c2 : Nat) : Int),
       ((17 * hexVal c3 : Nat) : Int)⟩ := by
  have h6 : ∀ c ∈ [c1, c1, c2, c2, c3, c3], isHexDigit c = true := by
    intro c hc
    apply h
    simp only [List.mem_cons, List.not_mem_nil, or_false] at hc ⊢
    tauto
  unfold hex_to_rgb
  rw [show String.mk ['#', c1, c2, c3] = String.mk ('#' :: [c1, c2, c3]) from rfl,
      hexStripped_hash_mk_hex h]
  rw [show hexExpanded (String.mk [c1, c2, c3]) = String.mk [c1, c1, c2, c2, c3, c3]
      from if_pos (by simp [String.length])]
  rw [hexToRgbCore_pairs h6]
  simp only [RGBColor.mk.injEq]
  refine ⟨?_, ?_, ?_⟩ <;> omega

theorem charOfNat_toNat_mid {n : Nat} (h1 : 65 ≤ n) (h2 : n ≤ 90) :
    (Char.ofNat n).toNat = n := by
  unfold Char.ofNat
  rw [dif_pos (Or.inl (by omega))]
  simp [Char.ofNatAux, Char.toNat]
  rfl

theorem toUpper_ne_space {c : Char} (h : c ≠ ' ') : Char.toUpper c ≠ ' ' := by
  simp only [Char.toUpper]
  split_ifs with hc
  · obtain ⟨ha, hb⟩ := hc
    intro he
    have h2 := congrArg Char.toNat he
    rw [charOfNat_toNat_mid (by omega) (by omega)] at h2
    have e : Char.toNat ' ' = 32 := rfl
    omega
  · exact h

theorem mem_pyStrip {c : Char} {s : String} (h : c ∈ (pyStrip s).toList) : c ∈ s.toList := by
  have h1 : c ∈ ((s.toList.dropWhile pyIsSpace).reverse.dropWhile pyIsSpace).reverse := h
  rw [List.mem_reverse] at h1
  have h2 := (List.dropWhile_sublist pyIsSpace).subset h1
  rw [List.mem_reverse] at h2
  exact (List.dropWhile_sublist pyIsSpace).subset h2

/-! ## Claim C5 -/

/-- The well-formed color strings named by the claim: an optional leading `#`
followed by exactly 3 or 6 hex digits. -/
def claimHexWellFormed (s : String) : Bool :=
  let core := if pyStartsWith s "#" then pyDrop s 1 else s
  (core.length = 3 ∨ core.length = 6) ∧ core.toList.all isHexDigit

/-- C5 counterexample: `"abcde"` is not a 3- or 6-digit hex string, yet
`_hex_to_rgb` does not return the default color for it — the three pair slices
`"ab"`, `"cd"`, `"e"` all parse, giving `RGBColor(171, 205, 14)`. -/
theorem C5_counterexample :
    claimHexWellFormed "abcde" = false ∧
    hex_to_rgb "abcde" = ⟨171, 205, 14⟩ ∧
    hex_to_rgb "abcde" ≠ ⟨17, 17, 17⟩ := by
  refine ⟨by decide, by decide, by decide⟩

/-- C5 (amended): the renderer's hex color parser accepts 3- or 6-digit hex
with or without a leading `#` (the 3-digit form expands each digit, giving
channel values `17 * digit`); an input on which some hex-pair slice fails to
parse (such as `"notacolor"` or the empty string) returns the default color
`RGBColor(17, 17, 17)` instead of raising — but a malformed input whose first
six post-normalization characters still parse as three hex pairs (such as
`"abcde"`) returns the color of those slices rather than the default. -/
theorem C5_hex_color_parsing (c1 c2 c3 c4 c5 c6 : Char)
    (h : ∀ c ∈ [c1, c2, c3, c4, c5, c6], isHexDigit c = true) :
    hex_to_rgb (String.mk [c1, c2, c3, c4, c5, c6]) =
      ⟨((16 * hexVal c1 + hexVal c2 : Nat) : Int),
       ((16 * hexVal c3 + hexVal c4 : Nat) : Int),
       ((16 * hexVal c5 + hexVal c6 : Nat) : Int)⟩ ∧
    hex_to_rgb (String.mk ['#', c1, c2, c3, c4, c5, c6]) =
      ⟨((16 * hexVal c1 + hexVal c2 : Nat) : Int),
       ((16 * hexVal c3 + hexVal c4 : Nat) : Int),
       ((16 * hexVal c5 + hexVal c6 : Nat) : Int)⟩ ∧
    hex_to_rgb (String.mk [c1, c2, c3]) =
      ⟨((17 * hexVal c1 : Nat) : Int), ((17 * hexVal c2 : Nat) : Int),
       ((17 * hexVal c3 : Nat) : Int)⟩ ∧
    hex_to_rgb (String.mk ['#', c1, c2, c3]) =
      ⟨((17 * hexVal c1 : Nat) : Int), ((17 * hexVal c2 : Nat) : Int),
       ((17 * hexVal c3 : Nat) : Int)⟩ ∧
    hex_to_rgb "notacolor" = ⟨17, 17, 17⟩ ∧
    hex_to_rgb "" = ⟨17, 17, 17⟩ ∧
    hex_to_rgb "abcde" = ⟨171, 205, 14⟩ := by
  have h3 : ∀ c ∈ [c1, c2, c3], isHexDigit c = true := by
    intro c hc
    apply h
    simp only [List.mem_cons, List.not_mem_nil, or_false] at hc ⊢
    tauto
  exact ⟨hex_to_rgb_six h, hex_to_rgb_six_hash h, hex_to_rgb_three h3,
    hex_to_rgb_three_hash h3, by decide, by decide, by decide⟩

/-- C5 witness: the theorem applied at `"abcdef"`. -/
theorem C5_witness :
    hex_to_rgb "abcdef" = ⟨171, 205, 239⟩ ∧ hex_to_rgb "#abc" = ⟨170, 187, 204⟩ := by
  have h := C5_hex_color_parsing 'a' 'b' 'c' 'd' 'e' 'f' (by decide)
  refine ⟨?_, ?_⟩
  · exact (show hex_to_rgb "abcdef" = _ from h.1).trans (by decide)
  · exact (show hex_to_rgb "#abc" = _ from h.2.2.2.1).trans (by decide)

/-! ## Claim C6 -/

/-- C6: the index→letter conversion of the quiz exporter: a `correctIndex` of
`None`, negative, or ≥ 4 maps to the empty answer letter; indices 0..3 map to
`"ABCD"[index]`; and column 6 (the Correct column) of a `quiz_single` row is
exactly this letter. -/
theorem C6_index_to_letter (i : Option Int) (b : QuizSingleBlock) :
    (i = none → get_letter i = "") ∧
    (∀ n : Int, i = some n → n < 0 → get_letter i = "") ∧
    (∀ n : Int, i = some n → 4 ≤ n → get_letter i = "") ∧
    (get_letter (some 0) = "A" ∧ get_letter (some 1) = "B" ∧
     get_letter (some 2) = "C" ∧ get_letter (some 3) = "D") ∧
    (row_from_quiz_single b).get? 6 = some (get_letter b.correctIndex) := by
  refine ⟨?_, ?_, ?_, by decide, ?_⟩
  · rintro rfl; rfl
  · rintro n rfl hn
    simp only [get_letter]
    rw [if_pos hn]
  · rintro n rfl hn
    simp only [get_letter]
    rw [if_neg (by omega), if_neg (by omega)]
  · rfl

/-- C6 witness: the theorem applied at concrete indices and a concrete block. -/
theorem C6_witness :
    get_letter (some (-3)) = "" ∧ get_letter (none : Option Int) = "" ∧
    get_letter (some 7) = "" ∧ get_letter (some 2) = "C" ∧
    (row_from_quiz_single ⟨"t", "q", ["w", "x", "y", "z"], some 2, "fc", "fi"⟩).get? 6 =
      some (get_letter (some 2)) := by
  refine ⟨(C6_index_to_letter (some (-3)) ⟨"t", "q", ["w", "x", "y", "z"], some 2, "fc", "fi"⟩).2.1
      (-3) rfl (by norm_num),
    (C6_index_to_letter (none : Option Int) ⟨"t", "q", ["w", "x", "y", "z"], some 2, "fc", "fi"⟩).1 rfl,
    (C6_index_to_letter (some 7) ⟨"t", "q", ["w", "x", "y", "z"], some 2, "fc", "fi"⟩).2.2.1
      7 rfl (by norm_num),
    (C6_index_to_letter (some 2) ⟨"t", "q", ["w", "x", "y", "z"], some 2, "fc", "fi"⟩).2.2.2.1.2.2.1,
    (C6_index_to_letter (some 2) ⟨"t", "q", ["w", "x", "y", "z"], some 2, "fc", "fi"⟩).2.2.2.2⟩

/-! ## Claim C1 -/

/-- The markup quiz section of the claim, with a multi-letter answer. -/
def c1MarkupText : String :=
  "## Quiz: Single Choice\nQuestion: Q?\nA: x\nB: y\nC: z\nD: w\nAnswer: A,C"

/-- The same quiz entered through the tabular importer. -/
def c1ImportedQuiz : Block :=
  row_to_block "QUIZ: Colors" "Question: Pick two\nA: red\nB: green\nC: blue\nD: black\nAnswer: A,C" ""

/-- C1 counterexample: parsing the markup quiz section with `Answer: A,C` does
NOT preserve the multi-letter answer. The markup parser's answer lookup is a
single-letter table, so `correctIndex` becomes `None` and the exported Correct
column is the empty string, not `"A,C"`. -/
theorem C1_counterexample :
    parse_script c1MarkupText =
      [Block.quiz_single ⟨"", "Q?", ["x", "y", "z", "w"], none, "", ""⟩] ∧
    ((build_quiz_csv_rows (parse_script c1MarkupText)).getD 1 []).getD 6 "" = "" ∧
    ("" : String) ≠ "A,C" := by
  refine ⟨by decide, by decide, by decide⟩

/-- C1 (amended): the multi-letter round-trip holds on the tabular-import path,
not the markup path: a quiz row imported with `Answer: A,C` yields a block
whose `answer` is exactly `"A,C"` and exports `"A,C"` in the Correct column,
while the markup parser maps `Answer: A,C` to no answer (`correctIndex = None`)
and exports an empty Correct column. -/
theorem C1_multiletter_roundtrip :
    ((build_quiz_csv_rows (parse_script c1MarkupText)).getD 1 []).getD 6 "" = "" ∧
    (∃ q : QuizBlock, c1ImportedQuiz = Block.quiz q ∧ q.answer = "A,C") ∧
    ((build_quiz_csv_rows [c1ImportedQuiz]).getD 1 []).getD 6 "" = "A,C" := by
  refine ⟨by decide,
    ⟨⟨"Colors", "Pick two", "red", "green", "blue", "black", [], "", "A,C", "", "", "", "", "", ""⟩,
      by decide, rfl⟩,
    by decide⟩

/-! ## Claim C7 -/

/-- C7: the quiz-table exporter emits the exact header row, then exactly one
row per quiz block in block order, skipping non-quiz blocks; the serialised
output starts with the UTF-8 byte-order marker; and the Correct column of a
legacy quiz row is the selected answer string stripped and uppercased —
containing no space at all when the block's answer string has none. -/
theorem C7_quiz_table_shape (blocks : List Block) (qb : QuizBlock)
    (hsp : ∀ c ∈ (legacyAnswerChoice qb).toList, c ≠ ' ') :
    (build_quiz_csv_rows blocks).head? = some quizCsvHeader ∧
    quizCsvHeader = ["Title", "Question", "A", "B", "C", "D",
      "Correct (Single or Multiple)", "FeedbackCorrect", "FeedbackIncorrect"] ∧
    (build_quiz_csv_rows blocks).tail = blocks.filterMap quizRowOf ∧
    (∀ sb : SlideBlock, quizRowOf (Block.slide sb) = none) ∧
    (∀ q : QuizBlock, quizRowOf (Block.quiz q) = some (row_from_quiz_legacy q)) ∧
    (∀ q : QuizSingleBlock, quizRowOf (Block.quiz_single q) = some (row_from_quiz_single q)) ∧
    (build_quiz_csv_bytes blocks).take 3 = [0xEF, 0xBB, 0xBF] ∧
    (row_from_quiz_legacy qb).getD 6 "" = pyUpper (pyStrip (legacyAnswerChoice qb)) ∧
    (∀ c ∈ ((row_from_quiz_legacy qb).getD 6 "").toList, c ≠ ' ') := by
  refine ⟨rfl, rfl, rfl, fun _ => rfl, fun _ => rfl, fun _ => rfl, rfl, rfl, ?_⟩
  intro c hc
  have hc' : c ∈ (pyUpper (pyStrip (legacyAnswerChoice qb))).toList := hc
  have hm : c ∈ (pyStrip (legacyAnswerChoice qb)).toList.map Char.toUpper := hc'
  obtain ⟨c0, hc0, rfl⟩ := List.mem_map.mp hm
  exact toUpper_ne_space (hsp c0 (mem_pyStrip hc0))

/-- C7 witness: the theorem applied to a concrete block list. -/
theorem C7_witness :
    (build_quiz_csv_rows [Block.slide ⟨"s", .s "", .l [], "", "", ""⟩,
        Block.quiz ⟨"t", "q", "w", "x", "y", "z", [], "", "A,C", "", "", "ok", "", "no", ""⟩]).head? =
      some quizCsvHeader ∧
    (row_from_quiz_legacy
        ⟨"t", "q", "w", "x", "y", "z", [], "", "A,C", "", "", "ok", "", "no", ""⟩).getD 6 "" =
      pyUpper (pyStrip (legacyAnswerChoice
        ⟨"t", "q", "w", "x", "y", "z", [], "", "A,C", "", "", "ok", "", "no", ""⟩)) := by
  have h := C7_quiz_table_shape
    [Block.slide ⟨"s", .s "", .l [], "", "", ""⟩,
     Block.quiz ⟨"t", "q", "w", "x", "y", "z", [], "", "A,C", "", "", "ok", "", "no", ""⟩]
    ⟨"t", "q", "w", "x", "y", "z", [], "", "A,C", "", "", "ok", "", "no", ""⟩ (by decide)
  exact ⟨h.1, h.2.2.2.2.2.2.2.1⟩

/-! ## Claim C3 -/

theorem renderBlocksSt_fst (resolve : String → Bool) (tmax bmax : Nat) :
    ∀ blocks : List Block, (renderBlocksSt resolve tmax bmax blocks).1 = blocks := by
  intro blocks
  induction blocks with
  | nil => rfl
  | cons b bs ih => simp [renderBlocksSt, ih]

theorem renderBlocksSt_snd (resolve : String → Bool) (tmax bmax : Nat) :
    ∀ blocks : List Block,
      (renderBlocksSt resolve tmax bmax blocks).2 =
        blocks.flatMap (renderBlock resolve tmax bmax) := by
  intro blocks
  induction blocks with
  | nil => rfl
  | cons b bs ih => simp [renderBlocksSt, ih]

theorem quizRowsSt_fst : ∀ blocks : List Block, (quizRowsSt blocks).1 = blocks := by
  intro blocks
  induction blocks with
  | nil => rfl
  | cons b bs ih => simp [quizRowsSt, ih]

theorem quizRowsSt_snd :
    ∀ blocks : List Block, (quizRowsSt blocks).2 = blocks.filterMap quizRowOf := by
  intro blocks
  induction blocks with
  | nil => rfl
  | cons b bs ih =>
    cases hq : quizRowOf b <;> simp [quizRowsSt, ih, List.filterMap_cons, hq]

/-- C3: the deck renderer and the quiz-table exporter leave the block sequence
unchanged (state-passing translation of the source loops, whose block accesses
are all reads), so rendering twice — the second time from the state the first
render left behind — yields the same deck, and exporting the table from that
state yields the same rows as from the original sequence. -/
theorem C3_idempotent_nonmutating (resolve : String → Bool) (tmax bmax : Nat)
    (ct : String) (blocks : List Block) :
    (build_storyboard_pptx_st resolve tmax bmax ct blocks).1 = blocks ∧
    (build_quiz_csv_st blocks).1 = blocks ∧
    (build_storyboard_pptx_st resolve tmax bmax ct
        ((build_storyboard_pptx_st resolve tmax bmax ct blocks).1)).2 =
      (build_storyboard_pptx_st resolve tmax bmax ct blocks).2 ∧
    (build_storyboard_pptx_st resolve tmax bmax ct
        ((build_storyboard_pptx_st resolve tmax bmax ct blocks).1)).2.length =
      (build_storyboard_pptx_st resolve tmax bmax ct blocks).2.length ∧
    (build_quiz_csv_st ((build_storyboard_pptx_st resolve tmax bmax ct blocks).1)).2 =
      quizCsvHeader :: blocks.filterMap quizRowOf ∧
    (build_quiz_csv_st ((build_storyboard_pptx_st resolve tmax bmax ct blocks).1)).2 =
      build_quiz_csv_rows blocks ∧
    (build_storyboard_pptx_st resolve tmax bmax ct blocks).2 =
      build_storyboard_pptx resolve tmax bmax ct blocks := by
  have hfst : (build_storyboard_pptx_st resolve tmax bmax ct blocks).1 = blocks := by
    simp [build_storyboard_pptx_st, renderBlocksSt_fst]
  have hcsv : (build_quiz_csv_st blocks).1 = blocks := by
    simp [build_quiz_csv_st, quizRowsSt_fst]
  have hrows : (build_quiz_csv_st blocks).2 = quizCsvHeader :: blocks.filterMap quizRowOf := by
    simp [build_quiz_csv_st, quizRowsSt_snd]
  refine ⟨hfst, hcsv, by rw [hfst], by rw [hfst], by rw [hfst, hrows], by rw [hfst, hrows]; rfl, ?_⟩
  simp [build_storyboard_pptx_st, build_storyboard_pptx, renderBlocksSt_snd]

/-! ## Claim C2 -/

/-- Ceiling division, used to describe the number of pagination chunks. -/
def cdiv (a b : Nat) : Nat := (a + b - 1) / b

/-- Spec-side description of lockstep pagination, from the claim's words: chunk
`i` shows text lines `i*max_text ..< (i+1)*max_text` and bullet lines
`i*max_bullets ..< (i+1)*max_bullets`, across
`max ⌈text/max_text⌉ ⌈bullets/max_bullets⌉` physical slides. -/
def lockstepChunks (tmax bmax : Nat) (text bullets : List String) :
    List (List String × List String) :=
  (List.range (max (cdiv text.length tmax) (cdiv bullets.length bmax))).map
    (fun i => ((text.drop (i * tmax)).take tmax, (bullets.drop (i * bmax)).take bmax))

theorem cdiv_zero {b : Nat} (hb : 0 < b) : cdiv 0 b = 0 := by
  unfold cdiv
  exact Nat.div_eq_of_lt (by omega)

theorem cdiv_succ_step {a b : Nat} (hb : 0 < b) (ha : 0 < a) :
    cdiv a b = cdiv (a - b) b + 1 := by
  unfold cdiv
  rcases le_or_lt a b with hab | hab
  · have h0 : a - b = 0 := by omega
    rw [h0]
    have e1 : (0 + b - 1) / b = 0 := Nat.div_eq_of_lt (by omega)
    have e2 : (a + b - 1) / b = 1 := Nat.div_eq_of_lt_le (by omega) (by omega)
    omega
  · have e1 : a + b - 1 = (a - 1) + b := by omega
    have e2 : (a - b) + b - 1 = a - 1 := by omega
    rw [e1, e2, Nat.add_div_right _ hb]

theorem lockstep_cons {tmax bmax : Nat} (htm : 0 < tmax) (hbm : 0 < bmax)
    {text bullets : List String} (hne : ¬(text = [] ∧ bullets = [])) :
    lockstepChunks tmax bmax text bullets =
      (text.take tmax, bullets.take bmax) ::
        lockstepChunks tmax bmax (text.drop tmax) (bullets.drop bmax) := by
  unfold lockstepChunks
  have e0t : cdiv 0 tmax = 0 := cdiv_zero htm
  have e0b : cdiv 0 bmax = 0 := cdiv_zero hbm
  have hN : max (cdiv text.length tmax) (cdiv bullets.length bmax) =
      (max (cdiv (text.drop tmax).length tmax) (cdiv (bullets.drop bmax).length bmax)) + 1 := by
    rw [List.length_drop, List.length_drop]
    rcases Nat.eq_zero_or_pos text.length with hlt | hlt <;>
      rcases Nat.eq_zero_or_pos bullets.length with hlb | hlb
    · exact absurd ⟨List.length_eq_zero.mp hlt, List.length_eq_zero.mp hlb⟩ hne
    · have est : cdiv bullets.length bmax = cdiv (bullets.length - bmax) bmax + 1 :=
        cdiv_succ_step hbm hlb
      rw [hlt, Nat.zero_sub, e0t, est]
      omega
    · have est : cdiv text.length tmax = cdiv (text.length - tmax) tmax + 1 :=
        cdiv_succ_step htm hlt
      rw [hlb, Nat.zero_sub, e0b, est]
      omega
    · rw [cdiv_succ_step htm hlt, cdiv_succ_step hbm hlb]
      omega
  rw [hN, List.range_succ_eq_map, List.map_cons]
  congr 1
  · simp
  · rw [List.map_map]
    apply List.map_congr_left
    intro i _
    simp only [Function.comp_apply, List.drop_drop]
    have e1 : tmax + i * tmax = Nat.succ i * tmax := by rw [Nat.succ_mul]; omega
    have e2 : bmax + i * bmax = Nat.succ i * bmax := by rw [Nat.succ_mul]; omega
    rw [e1, e2]

theorem chunkSteps_eq_lockstep {tmax bmax : Nat} (htm : 0 < tmax) (hbm : 0 < bmax) :
    ∀ (fuel : Nat) (text bullets : List String),
      text.length + bullets.length ≤ fuel →
      chunkSteps tmax bmax fuel text bullets = lockstepChunks tmax bmax text bullets := by
  intro fuel
  induction fuel with
  | zero =>
    intro text bullets hf
    have ht : text = [] := List.length_eq_zero.mp (by omega)
    have hb : bullets = [] := List.length_eq_zero.mp (by omega)
    subst ht hb
    simp [chunkSteps, lockstepChunks, cdiv_zero htm, cdiv_zero hbm]
  | succ fuel ih =>
    intro text bullets hf
    by_cases hemp : text = [] ∧ bullets = []
    · obtain ⟨rfl, rfl⟩ := hemp
      simp [chunkSteps, lockstepChunks, cdiv_zero htm, cdiv_zero hbm]
    · rw [show chunkSteps tmax bmax (fuel + 1) text bullets =
          (text.take tmax, bullets.take bmax) ::
            chunkSteps tmax bmax fuel (text.drop tmax) (bullets.drop bmax) from by
        rw [chunkSteps]; rw [if_neg hemp]]
      have hlen : (text.drop tmax).length + (bullets.drop bmax).length ≤ fuel := by
        rw [List.length_drop, List.length_drop]
        have h1 : ¬(text.length = 0 ∧ bullets.length = 0) := by
          intro ⟨a, b⟩
          exact hemp ⟨List.length_eq_zero.mp a, List.length_eq_zero.mp b⟩
        omega
      rw [ih (text.drop tmax) (bullets.drop bmax) hlen]
      exact (lockstep_cons htm hbm hemp).symm

theorem chunk_content_eq_lockstep {tmax bmax : Nat} (htm : 0 < tmax) (hbm : 0 < bmax)
    (text bullets : List String) (hne : ¬(text = [] ∧ bullets = [])) :
    chunk_content text bullets tmax bmax = lockstepChunks tmax bmax text bullets := by
  unfold chunk_content
  rw [if_neg hne]
  exact chunkSteps_eq_lockstep htm hbm _ text bullets le_rfl

/-- The claim's concrete scenario: a slide block with 13 bullets, narration
and an image. -/
def c2Bullets : List String := (List.range 13).map toString

def c2Block : Block :=
  .slide ⟨"T", .l [], .l c2Bullets, "the narration", "img.png", ""⟩

/-- C2: pagination. `_chunk_content` paginates text and bullets in lockstep
(chunk `i` holds text lines `i*max_text ..< (i+1)*max_text` and bullet lines
`i*max_bullets ..< (i+1)*max_bullets`), every chunk respects both caps, every
physical slide after the first carries the " (cont.)" title and neither notes
nor image, and the concrete 13-bullet block with caps 6/6 renders to exactly
3 content slides with bullet counts [6, 6, 1], narration and image on the
first slide only. -/
theorem C2_pagination (tmax bmax : Nat) (htm : 0 < tmax) (hbm : 0 < bmax)
    (text bullets : List String) (hne : ¬(text = [] ∧ bullets = []))
    (resolve : String → Bool) (b : SlideBlock) (i : Nat) (s : RSlide) :
    chunk_content text bullets tmax bmax = lockstepChunks tmax bmax text bullets ∧
    (∀ c ∈ chunk_content text bullets tmax bmax, c.1.length ≤ tmax ∧ c.2.length ≤ bmax) ∧
    ((renderSlideBlock resolve tmax bmax b)[i]? = some s → 1 ≤ i →
      s.notes = [] ∧ s.image = false ∧ s.title = pyStrip (pyOr b.title "Slide") ++ " (cont.)") ∧
    build_storyboard_pptx (fun _ => true) 6 6 "Course" [c2Block] =
      [titleSlide "Course",
       ⟨"T", [], ["0", "1", "2", "3", "4", "5"], ["the narration"], true⟩,
       ⟨"T (cont.)", [], ["6", "7", "8", "9", "10", "11"], [], false⟩,
       ⟨"T (cont.)", [], ["12"], [], false⟩] := by
  refine ⟨chunk_content_eq_lockstep htm hbm text bullets hne, ?_, ?_, by decide⟩
  · rw [chunk_content_eq_lockstep htm hbm text bullets hne]
    intro c hc
    obtain ⟨j, _, rfl⟩ := List.mem_map.mp hc
    exact ⟨List.length_take_le _ _, List.length_take_le _ _⟩
  · intro hget hi
    simp only [renderSlideBlock, List.getElem?_mapIdx] at hget
    cases h2 : (chunk_content (to_lines b.text) (to_lines b.bullets) tmax bmax)[i]? with
    | none => rw [h2] at hget; exact absurd hget (by simp)
    | some c =>
      rw [h2] at hget
      simp only [Option.map_some'] at hget
      have hs := Option.some.inj hget
      subst hs
      have hine : ¬ i = 0 := by omega
      refine ⟨by simp [hine], by simp [hine], by simp [hine]⟩

/-- C2 witness: the theorem applied at caps 6/6 and the 13-bullet block. -/
theorem C2_witness :
    chunk_content [] c2Bullets 6 6 = lockstepChunks 6 6 [] c2Bullets ∧
    (chunk_content [] c2Bullets 6 6).map (fun c => c.2.length) = [6, 6, 1] := by
  have h := C2_pagination 6 6 (by decide) (by decide) [] c2Bullets
    (by decide) (fun _ => true) ⟨"T", .s "", .l [], "", "", ""⟩ 1 ⟨"", [], [], [], false⟩
  exact ⟨h.1, by decide⟩

/-! ## Claim C8 -/

/-- Canonical comma-separated letter-set form: `s` spells the letters of `ls`
separated by commas (`ls = ['A', 'C']` gives `"A,C"`, `ls = []` gives `""`). -/
def LetterSetForm (s : String) (ls : List Char) : Prop :=
  (∀ c ∈ ls, c = 'A' ∨ c = 'B' ∨ c = 'C' ∨ c = 'D') ∧ s.toList = List.intersperse ',' ls

theorem intersperse_comma_iff {ls : List Char}
    (h : ∀ c ∈ ls, c = 'A' ∨ c = 'B' ∨ c = 'C' ∨ c = 'D') :
    (List.intersperse ',' ls).contains ',' = true ↔ 2 ≤ ls.length := by
  cases ls with
  | nil => simp
  | cons a t =>
    cases t with
    | nil =>
      rw [List.intersperse_singleton]
      constructor
      · intro hc
        rcases h a (by simp) with rfl | rfl | rfl | rfl <;> simp at hc
      · intro hc; simp at hc
    | cons b t2 =>
      rw [List.intersperse_cons_cons]
      constructor
      · intro _
        simp only [List.length_cons]
        omega
      · intro _
        simp [List.contains_cons]

theorem dropWhile_eq_self_of_head? {p : Char → Bool} {l : List Char} {c : Char}
    (hh : l.head? = some c) (hc : p c = false) : l.dropWhile p = l := by
  cases l with
  | nil => rfl
  | cons x t =>
    obtain rfl : x = c := Option.some.inj hh
    rw [List.dropWhile_cons_of_neg (by simp [hc])]

/-- A string whose first and last characters are non-space is `strip`-fixed. -/
theorem pyStrip_eq_self_of_ends {s : String} {c1 c2 : Char}
    (hh : s.toList.head? = some c1) (h1 : pyIsSpace c1 = false)
    (hl : s.toList.getLast? = some c2) (h2 : pyIsSpace c2 = false) :
    pyStrip s = s := by
  unfold pyStrip
  rw [dropWhile_eq_self_of_head? hh h1]
  rw [dropWhile_eq_self_of_head? (by rw [List.head?_reverse]; exact hl) h2]
  rw [List.reverse_reverse]
  rfl

/-- If `strip` fixes a nonempty string, its first character is non-space. -/
theorem pyStrip_head_not_space {a : String} (ha : pyStrip a = a) {c : Char}
    (hc : a.toList.head? = some c) : pyIsSpace c = false := by
  by_contra hsp
  rw [Bool.not_eq_false] at hsp
  obtain ⟨t, ht⟩ : ∃ t, a.toList = c :: t := by
    cases hl : a.toList with
    | nil => rw [hl] at hc; cases hc
    | cons x t =>
      rw [hl] at hc
      exact ⟨t, by rw [Option.some.inj hc]⟩
  have hlen : (pyStrip a).toList.length < a.toList.length := by
    show (((a.toList.dropWhile pyIsSpace).reverse.dropWhile pyIsSpace).reverse).length < _
    rw [List.length_reverse]
    calc ((a.toList.dropWhile pyIsSpace).reverse.dropWhile pyIsSpace).length
        ≤ (a.toList.dropWhile pyIsSpace).reverse.length :=
          (List.dropWhile_sublist pyIsSpace).length_le
      _ = (a.toList.dropWhile pyIsSpace).length := List.length_reverse _
      _ < a.toList.length := by
          rw [ht, List.dropWhile_cons_of_pos hsp]
          have := (@List.dropWhile_sublist _ t pyIsSpace).length_le
          simp only [List.length_cons]
          omega
  rw [ha] at hlen
  omega

/-- Appending the hint to a strip-fixed nonempty question is strip-fixed. -/
theorem pyStrip_append_hint {a : String} (ha : pyStrip a = a) (hne : a ≠ "") :
    pyStrip (a ++ "\n\n(Select all that apply)") = a ++ "\n\n(Select all that apply)" := by
  have hl : a.toList ≠ [] := by
    intro h
    exact hne (by cases a with | mk d => cases h; rfl)
  obtain ⟨c, hc⟩ : ∃ c, a.toList.head? = some c := by
    cases ht : a.toList with
    | nil => exact absurd ht hl
    | cons x t => exact ⟨x, rfl⟩
  apply pyStrip_eq_self_of_ends
  · rw [show (a ++ "\n\n(Select all that apply)").toList =
        a.toList ++ "\n\n(Select all that apply)".toList from rfl, List.head?_append, hc]
    rfl
  · exact pyStrip_head_not_space ha hc
  · rw [show (a ++ "\n\n(Select all that apply)").toList =
        a.toList ++ "\n\n(Select all that apply)".toList from rfl, List.getLast?_append]
    rfl
  · rfl

/-- C8: rendering a legacy quiz block. When the space-stripped answer is a
comma-separated letter set with more than one letter, the renderer appends the
literal `"(Select all that apply)"` to the DISPLAYED question only; with at
most one letter no hint is appended; options render as one
`"<Letter>: <text>"` bullet per non-empty option in fixed order A, B, C, D;
and the block list the render loop leaves behind is unchanged, so the stored
question field is untouched. -/
theorem C8_multi_answer_hint (q : QuizBlock) (ls : List Char) (resolve : String → Bool)
    (tmax bmax : Nat) (rest : List Block)
    (h1 : LetterSetForm (pyReplace q.answer " " "") ls)
    (h2 : pyStrip q.question = q.question) (h3 : q.question ≠ "") :
    ∃ rs : RSlide, renderBlock resolve tmax bmax (Block.quiz q) = [rs] ∧
      (2 ≤ ls.length → rs.paras = [q.question ++ "\n\n(Select all that apply)"]) ∧
      (ls.length ≤ 1 → rs.paras = [q.question]) ∧
      rs.bullets = (List.zip ["A", "B", "C", "D"] (extract_quiz_choices q)).filterMap
        (fun p => if p.2 ≠ "" then some (p.1 ++ ": " ++ p.2) else none) ∧
      (renderBlocksSt resolve tmax bmax (Block.quiz q :: rest)).1 = Block.quiz q :: rest := by
  refine ⟨renderQuizSlide q, rfl, ?_, ?_, rfl, ?_⟩
  · intro hml
    have hcomma : (pyReplace q.answer " " "").toList.contains ',' = true := by
      rw [h1.2]
      exact (intersperse_comma_iff h1.1).mpr hml
    have hdq : quizDisplayQuestion q = q.question ++ "\n\n(Select all that apply)" := by
      unfold quizDisplayQuestion
      rw [if_pos hcomma]
      exact pyStrip_append_hint h2 h3
    have hne : q.question ++ "\n\n(Select all that apply)" ≠ "" := by
      intro he
      have := congrArg String.toList he
      simp at this
    show (renderQuizSlide q).paras = _
    unfold renderQuizSlide
    simp only [hdq]
    rw [if_pos hne]
  · intro hle
    have hcomma : (pyReplace q.answer " " "").toList.contains ',' = false := by
      rw [h1.2]
      rw [Bool.eq_false_iff]
      intro hc
      have := (intersperse_comma_iff h1.1).mp hc
      omega
    have hdq : quizDisplayQuestion q = q.question := by
      unfold quizDisplayQuestion
      rw [h1.2] at hcomma ⊢
      rw [if_neg (by rw [hcomma]; simp)]
    show (renderQuizSlide q).paras = _
    unfold renderQuizSlide
    simp only [hdq]
    rw [if_pos h3]
  · simp [renderBlocksSt, renderBlocksSt_fst]

/-- C8 witness: the theorem applied to a concrete multi-answer quiz block. -/
theorem C8_witness :
    ∃ rs : RSlide,
      renderBlock (fun _ => true) 6 6
        (Block.quiz ⟨"Qz", "Pick two", "red", "green", "blue", "black", [], "", "A,C",
          "", "", "good", "", "bad", ""⟩) = [rs] ∧
      rs.paras = ["Pick two\n\n(Select all that apply)"] ∧
      rs.bullets = ["A: red", "B: green", "C: blue", "D: black"] := by
  obtain ⟨rs, ha, hb, -, hd, -⟩ :=
    C8_multi_answer_hint
      ⟨"Qz", "Pick two", "red", "green", "blue", "black", [], "", "A,C",
        "", "", "good", "", "bad", ""⟩
      ['A', 'C'] (fun _ => true) 6 6 []
      ⟨by decide, by decide⟩ (by decide) (by decide)
  refine ⟨rs, ha, ?_, ?_⟩
  · rw [hb (by decide)]
    decide
  · rw [hd]
    decide

/-! ## Claim C9 -/

/-- The binding contributed by one quiz body line: lines containing a colon
split at the first colon into lowered key / stripped value. -/
def quizLinePair? (ln : String) : Option (String × String) :=
  if ln.toList.contains ':' then
    some (pyLower (pyStrip (beforeColon ln)), pyStrip (afterColon ln))
  else none

theorem foldl_quiz_pairs (init : List (String × String)) :
    ∀ lines : List String,
      lines.foldl (fun m ln =>
        if ln.toList.contains ':' then
          m ++ [(pyLower (pyStrip (beforeColon ln)), pyStrip (afterColon ln))]
        else m) init = init ++ lines.filterMap quizLinePair? := by
  intro lines
  induction lines generalizing init with
  | nil => simp
  | cons ln rest ih =>
    simp only [List.foldl_cons, List.filterMap_cons]
    by_cases hc : ln.toList.contains ':'
    · have hp : quizLinePair? ln =
          some (pyLower (pyStrip (beforeColon ln)), pyStrip (afterColon ln)) := by
        unfold quizLinePair?
        rw [if_pos hc]
      rw [if_pos hc, ih, hp]
      simp
    · have hp : quizLinePair? ln = none := by
        unfold quizLinePair?
        rw [if_neg hc]
      rw [if_neg hc, ih, hp]

theorem quizFieldsOf_eq (t : String) (lines : List String) :
    quizFieldsOf t lines = ("title", t) :: lines.filterMap quizLinePair? := by
  unfold quizFieldsOf
  rw [foldl_quiz_pairs]
  rfl

/-- When no body line binds the `title` key, the quiz title survives. -/
theorem dictGet_title (t : String) (lines : List String)
    (ht : ∀ ln ∈ lines, (quizLinePair? ln).map Prod.fst ≠ some "title") :
    dictGet (quizFieldsOf t lines) "title" "" = t := by
  rw [quizFieldsOf_eq]
  unfold dictGet
  rw [List.reverse_cons, List.find?_append]
  have hnone : (lines.filterMap quizLinePair?).reverse.find?
      (fun p => p.1 = "title") = none := by
    rw [List.find?_eq_none]
    intro p hp
    rw [List.mem_reverse] at hp
    obtain ⟨ln, hln, hsome⟩ := List.mem_filterMap.mp hp
    have := ht ln hln
    rw [hsome] at this
    simp only [Option.map_some'] at this
    simp only [decide_eq_true_eq]
    intro he
    exact this (by rw [he])
  rw [hnone]
  simp

theorem quizRowBlock_title (t : String) (ls : List String) :
    (quizRowBlock t ls).title = dictGet (quizFieldsOf t ls) "title" "" := rfl

theorem quizRowBlock_question (t : String) (ls : List String) :
    (quizRowBlock t ls).question = dictGet (quizFieldsOf t ls) "question" "" := rfl

theorem quizRowBlock_answer (t : String) (ls : List String) :
    (quizRowBlock t ls).answer =
      pyUpper (pyReplace (dictGet (quizFieldsOf t ls) "answer" "") " " "") := rfl

/-- C9: a spreadsheet row whose trimmed title starts (case-insensitively) with
`QUIZ` and contains a colon imports to a legacy quiz block whose title is the
trimmed text after the first colon (provided no body line binds the `title`
key); the fields come from splitting each body line at its first colon, and
the answer is the looked-up `answer` value with spaces removed, uppercased,
with no letters-only restriction. -/
theorem C9_quiz_row (title body narration : String)
    (hq : pyStartsWith (pyUpper (pyStrip title)) "QUIZ" = true)
    (hc : (pyStrip title).toList.contains ':' = true)
    (ht : ∀ ln ∈ split_body_to_lines (pyReplace body "\\n" "\n"),
      (quizLinePair? ln).map Prod.fst ≠ some "title") :
    ∃ q : QuizBlock, row_to_block title body narration = Block.quiz q ∧
      q.title = pyStrip (afterColon (pyStrip title)) ∧
      q.question = dictGet (quizFieldsOf (pyStrip (afterColon (pyStrip title)))
        (split_body_to_lines (pyReplace body "\\n" "\n"))) "question" "" ∧
      q.answer = pyUpper (pyReplace (dictGet (quizFieldsOf (pyStrip (afterColon (pyStrip title)))
        (split_body_to_lines (pyReplace body "\\n" "\n"))) "answer" "") " " "") := by
  have hrow : row_to_block title body narration =
      Block.quiz (quizRowBlock (pyStrip (afterColon (pyStrip title)))
        (split_body_to_lines (pyReplace body "\\n" "\n"))) := by
    simp only [row_to_block]
    rw [if_pos hq, if_pos hc]
  refine ⟨_, hrow, ?_, ?_, ?_⟩
  · rw [quizRowBlock_title]
    exact dictGet_title _ _ ht
  · rw [quizRowBlock_question]
  · rw [quizRowBlock_answer]

/-- C9 witness: end-to-end scenario B. -/
theorem C9_witness :
    row_to_block "QUIZ: Safety" "Question: Is fire hot?\nA: Yes\nB: No\nAnswer: A" "" =
      Block.quiz ⟨"Safety", "Is fire hot?", "Yes", "No", "", "", [], "", "A",
        "", "", "", "", "", ""⟩ ∧
    ∃ q : QuizBlock,
      row_to_block "QUIZ: Safety" "Question: Is fire hot?\nA: Yes\nB: No\nAnswer: A" "" =
        Block.quiz q ∧
      q.title = pyStrip (afterColon (pyStrip "QUIZ: Safety")) := by
  refine ⟨by decide, ?_⟩
  obtain ⟨q, h1, h2, -, -⟩ :=
    C9_quiz_row "QUIZ: Safety" "Question: Is fire hot?\nA: Yes\nB: No\nAnswer: A" ""
      (by decide) (by decide) (by decide)
  exact ⟨q, h1, h2⟩

/-! ## Claim C4 -/

theorem padChoices_length (choices : List String) (idx : Nat) :
    idx < (padChoices choices idx).length := by
  unfold padChoices
  rw [List.length_append, List.length_replicate]
  omega

theorem listSetChecked_ok (l : List String) (idx : Nat) (v : String) (h : idx < l.length) :
    listSetChecked l idx v = .ok (l.set idx v) := by
  unfold listSetChecked
  rw [if_pos h]

/-- The one fallible operation of the parser always succeeds: the `while` pad
loop guarantees the index is in bounds before `choices[idx] = val` runs. -/
theorem applyQuizField_never_fails (q : QuizSingleBlock) (key val : String) :
    ∃ q', applyQuizField q key val = .ok q' ∧ applyQuizFieldTotal q key val = q' := by
  have hok : ∃ q', applyQuizField q key val = .ok q' := by
    unfold applyQuizField
    split_ifs with h1 h2 h3 h4 h5 h6 <;>
      first
        | exact ⟨_, rfl⟩
        | (simp only [listSetChecked_ok _ _ _ (padChoices_length _ _)]; exact ⟨_, rfl⟩)
  obtain ⟨q', hq'⟩ := hok
  refine ⟨q', hq', ?_⟩
  unfold applyQuizFieldTotal
  rw [hq']

/-- One loop step on an unrecognized line inside an open slide: the line (and
the freeform lines after it) are folded into the slide's body text. -/
theorem parseLoop_freeform_fold (fuel : Nat) (ln : String) (rest : List String)
    (sl : CurSlide) (acc : List Cur)
    (h0 : pyStrip ln ≠ "")
    (h1 : fieldMatch? (pyStrip ln) = none)
    (h2 : slideHeader? (pyStrip ln) = none)
    (h3 : quizHeader (pyStrip ln) = false)
    (h4 : pyStartsWith (pyStrip ln) "- " = false) :
    ∃ more rest2, collectTextblock (ln :: rest) = (pyStrip ln :: more, rest2) ∧
      parseLoop (fuel + 1) (ln :: rest) (some (.slide sl)) acc =
        parseLoop fuel rest2 (some (.slide { sl with text := sl.text ++ (pyStrip ln :: more) })) acc := by
  have hstop : stopsText (pyStrip ln) = false := by
    unfold stopsText
    simp [h0, h1, h2, h3, h4]
  have hcol : collectTextblock (ln :: rest) =
      (pyStrip ln :: (collectTextblock rest).1, (collectTextblock rest).2) := by
    simp only [collectTextblock]
    rw [hstop]
    simp
  refine ⟨(collectTextblock rest).1, (collectTextblock rest).2, hcol, ?_⟩
  simp only [parseLoop, h1, h2, h3, hcol]
  rw [if_neg (by simp [h0])]
  simp [h0]

/-- C4: parser totality. The only operation inside `parse_script` that Python
could raise on — the guarded `current["choices"][idx] = val` assignment,
modelled checked by `applyQuizField` — succeeds for every state and input, so
`parse_script` (whose every other operation is total) returns a block list for
every input string; and an unrecognized line (non-blank, not a field, not a
section header, not a bullet) inside an open Slide is folded into that slide's
body text together with the freeform lines that follow it. -/
theorem C4_parser_totality (q : QuizSingleBlock) (key val text : String)
    (fuel : Nat) (ln : String) (rest : List String) (sl : CurSlide) (acc : List Cur)
    (h0 : pyStrip ln ≠ "")
    (h1 : fieldMatch? (pyStrip ln) = none)
    (h2 : slideHeader? (pyStrip ln) = none)
    (h3 : quizHeader (pyStrip ln) = false)
    (h4 : pyStartsWith (pyStrip ln) "- " = false) :
    (∃ q', applyQuizField q key val = Except.ok q' ∧ applyQuizFieldTotal q key val = q') ∧
    (∃ bs : List Block, parse_script text = bs) ∧
    (∃ more rest2, collectTextblock (ln :: rest) = (pyStrip ln :: more, rest2) ∧
      parseLoop (fuel + 1) (ln :: rest) (some (.slide sl)) acc =
        parseLoop fuel rest2
          (some (.slide { sl with text := sl.text ++ (pyStrip ln :: more) })) acc) :=
  ⟨applyQuizField_never_fails q key val, ⟨_, rfl⟩,
   parseLoop_freeform_fold fuel ln rest sl acc h0 h1 h2 h3 h4⟩

/-- C4 witness: the fallible choice assignment succeeds on a concrete state,
and a stray line folds into the open slide's body text. -/
theorem C4_witness :
    (∃ q', applyQuizField ⟨"", "", [], none, "", ""⟩ "c" "pick" = Except.ok q') ∧
    parse_script "## Slide: T\nsome stray line" =
      [Block.slide ⟨"T", .l ["some stray line"], .l [], "", "", ""⟩] := by
  obtain ⟨ha, -, -⟩ := C4_parser_totality ⟨"", "", [], none, "", ""⟩ "c" "pick"
    "## Slide: T\nsome stray line" 0 "some stray line" [] ⟨"T", [], [], "", "", ""⟩ []
    (by decide) (by decide) (by decide) (by decide) (by decide)
  obtain ⟨q', hq', -⟩ := ha
  exact ⟨⟨q', hq'⟩, by decide⟩

/-! ## Claim C10 -/

theorem parseLoop_nil (fuel : Nat) (cur : Option Cur) (acc : List Cur) :
    parseLoop fuel [] cur acc = (flushCur cur acc).reverse := by
  cases fuel <;> rfl

/-- With no block open, the loop skips every line that is not a section
header, consuming one unit of fuel per line. -/
theorem parseLoop_skip_nonheaders :
    ∀ (pre : List String) (fuel : Nat) (rest : List String) (acc : List Cur),
      (∀ ln ∈ pre, slideHeader? (pyStrip ln) = none ∧ quizHeader (pyStrip ln) = false) →
      parseLoop fuel (pre ++ rest) none acc = parseLoop (fuel - pre.length) rest none acc := by
  intro pre
  induction pre with
  | nil =>
    intro fuel rest acc _
    simp
  | cons ln pre' ih =>
    intro fuel rest acc h
    obtain ⟨hs, hq⟩ := h ln (by simp)
    have h' : ∀ l ∈ pre', slideHeader? (pyStrip l) = none ∧ quizHeader (pyStrip l) = false :=
      fun l hl => h l (by simp [hl])
    cases fuel with
    | zero =>
      simp [parseLoop]
    | succ f =>
      rw [List.cons_append]
      simp only [parseLoop, hs, hq, Bool.false_eq_true, if_false]
      rw [ih f rest acc h']
      rw [List.length_cons, Nat.succ_sub_succ]

/-- A text none of whose lines is a section header parses to no blocks. -/
theorem parse_script_no_headers (text : String)
    (h : ∀ ln ∈ (pySplitlines text).map pyRstrip,
      slideHeader? (pyStrip ln) = none ∧ quizHeader (pyStrip ln) = false) :
    parse_script text = [] := by
  have h2 := parseLoop_skip_nonheaders ((pySplitlines text).map pyRstrip)
    (((pySplitlines text).map pyRstrip).length + 1) [] [] h
  rw [List.append_nil] at h2
  show (parseLoop (((pySplitlines text).map pyRstrip).length + 1)
      ((pySplitlines text).map pyRstrip) none []).map normalizeCur = []
  rw [h2, parseLoop_nil]
  rfl

/-- C10: content before the first section header is silently discarded: a text
with no `## Slide:` / `## Quiz: Single Choice` line parses to the empty block
sequence, and — with no block open — any run of non-header lines before the
remaining input is skipped without contributing to any block. -/
theorem C10_preheader_dropped (text : String) (pre rest : List String)
    (fuel : Nat) (acc : List Cur)
    (h : ∀ ln ∈ (pySplitlines text).map pyRstrip,
      slideHeader? (pyStrip ln) = none ∧ quizHeader (pyStrip ln) = false)
    (hp : ∀ ln ∈ pre, slideHeader? (pyStrip ln) = none ∧ quizHeader (pyStrip ln) = false) :
    parse_script text = [] ∧
    parseLoop fuel (pre ++ rest) none acc = parseLoop (fuel - pre.length) rest none acc :=
  ⟨parse_script_no_headers text h, parseLoop_skip_nonheaders pre fuel rest acc hp⟩

/-- C10 witness: a text of stray lines, fields and bullets but no header
parses to `[]`, and two pre-header junk lines are skipped. -/
theorem C10_witness :
    parse_script "hello\nworld\n- stray\nKey: value" = [] ∧
    parseLoop 5 (["junk", ""] ++ ["## Slide: T"]) none [] =
      parseLoop 3 ["## Slide: T"] none [] := by
  obtain ⟨h1, h2⟩ := C10_preheader_dropped "hello\nworld\n- stray\nKey: value"
    ["junk", ""] ["## Slide: T"] 5 [] (by decide) (by decide)
  exact ⟨h1, h2⟩

end S2S
